import Mathlib

/-!
Verification of the company endpoint layer of a Go HubSpot API client
(`company.go`).  The Go code is shallowly embedded: Go strings are Lean
strings, a `*T` pointer field that may be nil is `Option T`, the HTTP
client collaborator is a function argument, and run-time panics are made
explicit in the result type.
-/

namespace Hubspot

/-- HsStr is the nullable string wrapper of the client library; a `*HsStr`
field is modelled as `Option HsStr`, with `none` for a nil pointer. -/
abbrev HsStr := String

/-- HsTime is the nullable timestamp wrapper, modelled by its wire string
form (its internals are irrelevant to the company layer). -/
abbrev HsTime := String

/-- NewString models `hubspot.NewString`, which boxes a string literal into
a freshly allocated present wrapper. -/
def NewString (s : String) : Option HsStr := some s

/-- Company mirrors the `Company` struct of `company.go`: twelve well-known
nullable properties plus the three custom-defined ones. -/
structure Company where
  ID : Option HsStr := none
  Name : Option HsStr := none
  Industry : Option HsStr := none
  Domain : Option HsStr := none
  Phone : Option HsStr := none
  City : Option HsStr := none
  State : Option HsStr := none
  HsCreateDate : Option HsTime := none
  HsLastModifiedDate : Option HsTime := none
  HsObjectID : Option HsStr := none
  HubspotOwnerAssignedDate : Option HsTime := none
  HubspotOwnerID : Option HsStr := none
  ProductNames : Option HsStr := none
  TrialStatus : Option HsStr := none
  TrialEndDate : Option HsStr := none
  deriving Repr, DecidableEq

/-- splitOnChar is `strings.Split` restricted to a one-character separator,
on the character list of the string.  Like Go's `strings.Split`, it returns
`[[]]` on the empty string and never returns an empty list. -/
def splitOnChar (sep : Char) : List Char → List (List Char)
  | [] => [[]]
  | c :: cs =>
    match splitOnChar sep cs with
    | [] => [[c]]
    | t :: ts => if c = sep then [] :: t :: ts else (c :: t) :: ts

/-- goSplit models `strings.Split(s, sep)` for a one-character separator. -/
def goSplit (s : String) (sep : Char) : List String :=
  (splitOnChar sep s.toList).map String.mk

/-- goJoin models `strings.Join(l, sep)`. -/
def goJoin (l : List String) (sep : String) : String :=
  String.intercalate sep l

/-- AddProductName mirrors `Company.AddProductName`: split the current
`products` value on `;` unless the field is nil or empty, append `name`
with no deduplication, rejoin and store. -/
def Company.AddProductName (c : Company) (name : String) : Company :=
  let tmpProductNames : List String :=
    match c.ProductNames with
    | some s => if s ≠ "" then goSplit s ';' else []
    | none => []
  let tmpProductNames := tmpProductNames ++ [name]
  { c with ProductNames := NewString (goJoin tmpProductNames ";") }

/-- GoPanic marks a run-time panic of the Go program. -/
inductive GoPanic where
  /-- a slice expression whose bounds are out of range -/
  | sliceBounds
  /-- a field read through a nil pointer -/
  | nilDeref
  deriving Repr, DecidableEq

/-- removeRangeStep is one iteration, at index `i`, of the
`for i, v := range tmpProductNames` loop in `Company.RemoveProductName`.
The range clause saved the original slice header, so `v` is element `i` of
the shared backing array `B` (whose length stays that of the original
split); `L` is the current length of the `tmpProductNames` slice.  On a
match, `append(tmpProductNames[:i], tmpProductNames[i+1:]...)` first
evaluates `tmpProductNames[i+1:]`, which Go only allows when
`i+1 ≤ L`, panicking with slice bounds out of range otherwise; when it is
allowed, the append shifts `B[i+1 .. L-1]` down one position in place,
leaves positions from `L-1` up stale, and shrinks the length by one. -/
def removeRangeStep (name : String) (B : List String) (L : Nat) (i : Nat) :
    Except GoPanic (List String × Nat) :=
  if B.getD i "" = name then
    if i + 1 ≤ L then
      .ok (B.take i ++ (B.drop (i + 1)).take (L - 1 - i) ++ B.drop (L - 1), L - 1)
    else
      .error .sliceBounds
  else
    .ok (B, L)

/-- removeRangeLoop runs the whole range loop: the range expression is
evaluated once, so the loop visits indices `0 .. n₀-1` where `n₀` is the
length of the original split, whatever later reassignments do. -/
def removeRangeLoop (name : String) (B₀ : List String) :
    Except GoPanic (List String × Nat) :=
  (List.range B₀.length).foldlM
    (fun st i => removeRangeStep name st.1 st.2 i) (B₀, B₀.length)

/-- RemoveProductName mirrors `Company.RemoveProductName`, including the
exact Go slice semantics of its remove-while-ranging loop: nil field is a
no-op; otherwise split on `;`, run the range loop, and store the surviving
prefix of the backing array, reverting to nil when the length reached 0. -/
def Company.RemoveProductName (c : Company) (name : String) :
    Except GoPanic Company :=
  match c.ProductNames with
  | none => .ok c
  | some s =>
    match removeRangeLoop name (goSplit s ';') with
    | .error p => .error p
    | .ok (B, L) =>
      if L = 0 then .ok { c with ProductNames := none }
      else .ok { c with ProductNames := NewString (goJoin (B.take L) ";") }

/-- defaultCompanyFields mirrors the `defaultCompanyFields` variable of
`company.go`: the property names requested when the caller supplies none. -/
def defaultCompanyFields : List String :=
  ["id",
   "name",
   "industry",
   "domain",
   "phone",
   "city",
   "state",
   "hs_createdate",
   "hs_lastmodifieddate",
   "hs_object_id",
   "hubspot_owner_assigneddate",
   "hubspot_owner_id",
   "products",
   "trial_status",
   "trial_end_date"]

/-- companyBasePath is the `companies` base path constant of `company.go`. -/
def companyBasePath : String := "companies"

/-- CompanyServiceOp mirrors the service struct: the resource base path plus
the HTTP client collaborator (the client is passed per call here). -/
structure CompanyServiceOp where
  companyPath : String
  deriving Repr, DecidableEq

/-- Modelled from the spec: the client constructor (outside `company.go`)
wires the company service to the fixed base path `companies`. -/
def companyServiceOp : CompanyServiceOp :=
  { companyPath := companyBasePath }

/-- Modelled from the spec: the query option value object (defined outside
`company.go`) holds the requested property name list, association type
names, and pagination/filter directives (kept opaque as key-value pairs). -/
structure RequestQueryOption where
  Properties : List String := []
  Associations : List String := []
  PagingAndFilters : List (String × String) := []
  deriving Repr, DecidableEq

/-- Modelled from the spec: `setupProperties(defaultFields)` (defined
outside `company.go`) returns an option whose property list is the caller's
originally specified list if non-empty, otherwise the supplied default
list; a pure transform that touches nothing else. -/
def RequestQueryOption.setupProperties (o : RequestQueryOption)
    (defaultFields : List String) : RequestQueryOption :=
  if o.Properties.isEmpty then { o with Properties := defaultFields } else o

/-- Modelled from the spec: the search option value object (defined outside
`company.go`) holds structured filter groups, sort directives, a property
list and pagination parameters, serialized directly as the POST body. -/
structure RequestSearchOption where
  FilterGroups : List (List (String × String)) := []
  Sorts : List String := []
  Properties : List String := []
  Limit : Nat := 0
  After : String := ""
  deriving Repr, DecidableEq

/-- Modelled from the spec: the write-path request envelope (defined
outside `company.go`) carries the caller's structure under a single
`properties` field. -/
structure RequestPayload (α : Type) where
  Properties : α
  deriving Repr, DecidableEq

/-- Modelled from the spec: the single response envelope (defined outside
`company.go`): a `properties` decode target (nil when the call expects an
association-shaped result) plus read-only metadata. -/
structure ResponseResource (α : Type) where
  Id : String := ""
  Properties : Option α := none
  CreatedAt : String := ""
  UpdatedAt : String := ""
  deriving Repr, DecidableEq

/-- Modelled from the spec: the multi response envelope (defined outside
`company.go`): an ordered sequence of single envelopes plus an opaque
pagination cursor. -/
structure ResponseResourceMulti (α : Type) where
  Results : List (ResponseResource α) := []
  Paging : String := ""
  deriving Repr, DecidableEq

/-- Outcome is the observable result of a Go operation returning
`(*T, error)`: a run-time panic, the `(nil, err)` return, or the
`(resource, nil)` return. -/
inductive Outcome (ε α : Type) where
  | panic (p : GoPanic)
  | fail (e : ε)
  | ok (r : α)
  deriving Repr, DecidableEq

/-- Outcome.ofExcept maps the transport collaborator's verdict to the
operation's return value: the error is handed through unmodified, the
decoded resource likewise. -/
def Outcome.ofExcept : Except ε α → Outcome ε α
  | .error e => .fail e
  | .ok r => .ok r

/-- Outcome.isPanic asks whether the operation ended in a run-time panic. -/
def Outcome.isPanic : Outcome ε α → Bool
  | .panic _ => true
  | _ => false

/-- Get mirrors `CompanyServiceOp.Get`.  The HTTP client collaborator's
`Get(path, resource, option)` is the function argument `clientGet`, which
returns the decoded resource or the transport error.  The Go `option`
argument is a possibly-nil pointer, hence `Option RequestQueryOption`;
reading `option.Associations` through a nil pointer panics before any
request is issued. -/
def CompanyServiceOp.Get {α ε : Type} (s : CompanyServiceOp)
    (clientGet : String → ResponseResource α → RequestQueryOption →
      Except ε (ResponseResource α))
    (companyID : String) (company : α) (option : Option RequestQueryOption) :
    Outcome ε (ResponseResource α) :=
  match option with
  | none => .panic .nilDeref
  | some opt =>
    let resource : ResponseResource α := { Properties := some company }
    let path := s.companyPath ++ "/" ++ companyID
    let pr : String × ResponseResource α :=
      if opt.Associations.length ≠ 0 then
        (path ++ "/associations/" ++ opt.Associations.headD "", {})
      else
        (path, resource)
    Outcome.ofExcept (clientGet pr.1 pr.2 (opt.setupProperties defaultCompanyFields))

/-- Create mirrors `CompanyServiceOp.Create`: POST to the base path with
the caller's structure as the payload's `properties` and the same structure
as the response envelope's decode target. -/
def CompanyServiceOp.Create {α ε : Type} (s : CompanyServiceOp)
    (clientPost : String → RequestPayload α → ResponseResource α →
      Except ε (ResponseResource α))
    (company : α) : Outcome ε (ResponseResource α) :=
  Outcome.ofExcept
    (clientPost s.companyPath { Properties := company } { Properties := some company })

/-- Update mirrors `CompanyServiceOp.Update`: PATCH to `companies/{id}`
with the same envelope discipline as Create. -/
def CompanyServiceOp.Update {α ε : Type} (s : CompanyServiceOp)
    (clientPatch : String → RequestPayload α → ResponseResource α →
      Except ε (ResponseResource α))
    (companyID : String) (company : α) : Outcome ε (ResponseResource α) :=
  Outcome.ofExcept
    (clientPatch (s.companyPath ++ "/" ++ companyID) { Properties := company }
      { Properties := some company })

/-- GetAll mirrors `CompanyServiceOp.GetAll`: a fresh empty multi envelope,
default-field substitution when the option's property list is empty, then
GET against the base path.  The `company` target argument is never read.
Reading `option.Properties` through a nil pointer panics. -/
def CompanyServiceOp.GetAll {α ε : Type} (s : CompanyServiceOp)
    (clientGet : String → ResponseResourceMulti α → RequestQueryOption →
      Except ε (ResponseResourceMulti α))
    (company : α) (option : Option RequestQueryOption) :
    Outcome ε (ResponseResourceMulti α) :=
  match option with
  | none => .panic .nilDeref
  | some opt =>
    let resource : ResponseResourceMulti α := {}
    let opt :=
      if opt.Properties.length = 0 then opt.setupProperties defaultCompanyFields
      else opt
    Outcome.ofExcept (clientGet s.companyPath resource opt)

/-- Search mirrors `CompanyServiceOp.Search`: the multi envelope is seeded
with one single envelope holding the caller's structure, and the search
option itself is the POST body, sent to `{basePath}/search`. -/
def CompanyServiceOp.Search {α ε : Type} (s : CompanyServiceOp)
    (clientPost : String → RequestSearchOption → ResponseResourceMulti α →
      Except ε (ResponseResourceMulti α))
    (company : α) (option : RequestSearchOption) :
    Outcome ε (ResponseResourceMulti α) :=
  let resources : List (ResponseResource α) := [] ++ [{ Properties := some company }]
  Outcome.ofExcept
    (clientPost (s.companyPath ++ "/search") option { Results := resources })

/-- Delete mirrors `CompanyServiceOp.Delete`: DELETE to `companies/{id}`,
returning only the transport verdict. -/
def CompanyServiceOp.Delete {ε : Type} (s : CompanyServiceOp)
    (clientDelete : String → Except ε Unit) (companyID : String) :
    Outcome ε Unit :=
  Outcome.ofExcept (clientDelete (s.companyPath ++ "/" ++ companyID))

lemma Outcome.isPanic_ofExcept {ε α : Type} (x : Except ε α) :
    (Outcome.ofExcept x).isPanic = false := by
  cases x <;> rfl

/-- Claim C8: the default field list for Company consists of exactly the
fifteen names id, name, industry, domain, phone, city, state, hs_createdate,
hs_lastmodifieddate, hs_object_id, hubspot_owner_assigneddate,
hubspot_owner_id, products, trial_status, trial_end_date, in that order. -/
theorem defaultCompanyFields_fifteen_names :
    defaultCompanyFields =
      ["id", "name", "industry", "domain", "phone", "city", "state",
       "hs_createdate", "hs_lastmodifieddate", "hs_object_id",
       "hubspot_owner_assigneddate", "hubspot_owner_id", "products",
       "trial_status", "trial_end_date"] ∧
    defaultCompanyFields.length = 15 :=
  ⟨rfl, rfl⟩

/-- Claim C2: with an empty property list, `setupProperties` substitutes
exactly the provided default list (touching nothing else); with a non-empty
property list the option is returned unchanged, not merged. -/
theorem setupProperties_default_substitution :
    ∀ (o : RequestQueryOption) (defaults : List String),
      (o.Properties = [] →
        o.setupProperties defaults = { o with Properties := defaults }) ∧
      (o.Properties ≠ [] → o.setupProperties defaults = o) := by
  intro o defaults
  refine ⟨fun h => ?_, fun h => ?_⟩
  · simp [RequestQueryOption.setupProperties, h]
  · simp [RequestQueryOption.setupProperties, h]

/-- Witness for claim C2 at concrete options. -/
theorem setupProperties_default_substitution_witness :
    RequestQueryOption.setupProperties { Properties := [] } ["a", "b"] =
      { Properties := ["a", "b"] } ∧
    RequestQueryOption.setupProperties { Properties := ["x"] } ["a", "b"] =
      { Properties := ["x"] } :=
  ⟨(setupProperties_default_substitution _ _).1 rfl,
   (setupProperties_default_substitution _ _).2 (by decide)⟩

/-- Claim C3: AddProductName always leaves the field present; from an
absent or empty field it stores exactly `name`; from a non-empty field it
splits on the semicolon, appends `name` without deduplication, and stores
the rejoined sequence; in particular two additions of "x" starting from an
absent field give "x" and then "x;x". -/
theorem addProductName_append_no_dedup :
    (∀ (c : Company) (name : String),
      ((c.AddProductName name).ProductNames).isSome = true) ∧
    (∀ (c : Company) (name : String),
      c.ProductNames = none ∨ c.ProductNames = some "" →
        (c.AddProductName name).ProductNames = some name) ∧
    (∀ (c : Company) (name s : String), c.ProductNames = some s → s ≠ "" →
      (c.AddProductName name).ProductNames =
        some (goJoin (goSplit s ';' ++ [name]) ";")) ∧
    (({} : Company).AddProductName "x").ProductNames = some "x" ∧
    ((({} : Company).AddProductName "x").AddProductName "x").ProductNames =
      some "x;x" := by
  refine ⟨fun c name => ?_, fun c name h => ?_, fun c name s h hs => ?_, rfl, rfl⟩
  · cases h : c.ProductNames with
    | none => simp [Company.AddProductName, NewString, h]
    | some s => by_cases hs : s = "" <;> simp [Company.AddProductName, NewString, h, hs]
  · rcases h with h | h <;> simp [Company.AddProductName, NewString, goJoin, h] <;> rfl
  · simp [Company.AddProductName, NewString, h, hs]

/-- Witness for claim C3 at concrete companies. -/
theorem addProductName_append_no_dedup_witness :
    (({ ProductNames := some "a;b" } : Company).AddProductName "x").ProductNames =
      some (goJoin (goSplit "a;b" ';' ++ ["x"]) ";") ∧
    (({} : Company).AddProductName "x").ProductNames = some "x" :=
  ⟨addProductName_append_no_dedup.2.2.1 _ "x" "a;b" rfl (by decide),
   addProductName_append_no_dedup.2.1 _ "x" (Or.inl rfl)⟩

/-- Claim C1 (failing): the claim says RemoveProductName removes exactly the
first occurrence per call, so that "x;x" minus "x" gives "x" and subsequent
occurrences survive.  On the code, removing "x" from "x;x" instead panics
(slice bounds out of range in `tmpProductNames[i+1:]`), and removing "x"
from "x;y;x;z" removes both occurrences, giving "y;z". -/
theorem removeProductName_failing_inputs :
    Company.RemoveProductName { ProductNames := some "x;x" } "x" =
      .error .sliceBounds ∧
    Company.RemoveProductName { ProductNames := some "x;y;x;z" } "x" =
      .ok { ProductNames := some "y;z" } :=
  ⟨rfl, rfl⟩

/-- Claim C4: Get with no associations issues the request to
`companies/{id}` with the caller's structure as the envelope's properties
target; with a non-empty association list it issues the request to
`companies/{id}/associations/{first}` using only the first association
type, with an envelope that carries no properties target. -/
theorem get_path_and_envelope :
    ∀ {α ε : Type} (companyID : String) (company : α)
      (opt : RequestQueryOption)
      (clientGet : String → ResponseResource α → RequestQueryOption →
        Except ε (ResponseResource α)),
      (opt.Associations = [] →
        companyServiceOp.Get clientGet companyID company (some opt) =
          Outcome.ofExcept
            (clientGet ("companies/" ++ companyID)
              { Properties := some company }
              (opt.setupProperties defaultCompanyFields))) ∧
      (∀ (a : String) (rest : List String), opt.Associations = a :: rest →
        companyServiceOp.Get clientGet companyID company (some opt) =
          Outcome.ofExcept
            (clientGet ("companies/" ++ companyID ++ "/associations/" ++ a)
              { Properties := none }
              (opt.setupProperties defaultCompanyFields))) := by
  intro α ε companyID company opt clientGet
  refine ⟨fun h => ?_, fun a rest h => ?_⟩
  · simp [CompanyServiceOp.Get, companyServiceOp, companyBasePath, h]
  · simp [CompanyServiceOp.Get, companyServiceOp, companyBasePath, h]

/-- Witness for claim C4 with a path-recording transport at id 42. -/
theorem get_path_and_envelope_witness :
    companyServiceOp.Get (fun p _ _ => Except.error p) "42" ("t" : String)
        (some {}) = Outcome.fail "companies/42" ∧
    companyServiceOp.Get (fun p _ _ => Except.error p) "42" ("t" : String)
        (some { Associations := ["contacts"] }) =
      Outcome.fail "companies/42/associations/contacts" := by
  constructor
  · rw [(get_path_and_envelope "42" "t" {} _).1 rfl]
    rfl
  · rw [(get_path_and_envelope "42" "t" { Associations := ["contacts"] } _).2
      "contacts" [] rfl]
    rfl

/-- Claim C5: Search posts to `companies/search` with the search option as
the request body verbatim (no default-field substitution), decoding into a
multi-result envelope. -/
theorem search_posts_option_verbatim :
    ∀ {α ε : Type} (company : α) (option : RequestSearchOption)
      (clientPost : String → RequestSearchOption → ResponseResourceMulti α →
        Except ε (ResponseResourceMulti α)),
      companyServiceOp.Search clientPost company option =
        Outcome.ofExcept
          (clientPost "companies/search" option
            { Results := [{ Properties := some company }] }) := by
  intros
  rfl

/-- Claim C6: Create (POST to the base path) and Update (PATCH to
`companies/{id}`) place the caller's structure unmodified under the
payload's properties field and set the same structure as the response
envelope's properties target, both fixed before the transport runs. -/
theorem create_update_envelope :
    ∀ {α ε : Type} (company : α) (companyID : String)
      (clientPost clientPatch : String → RequestPayload α →
        ResponseResource α → Except ε (ResponseResource α)),
      companyServiceOp.Create clientPost company =
        Outcome.ofExcept
          (clientPost "companies" { Properties := company }
            { Properties := some company }) ∧
      companyServiceOp.Update clientPatch companyID company =
        Outcome.ofExcept
          (clientPatch ("companies/" ++ companyID) { Properties := company }
            { Properties := some company }) := by
  intros
  exact ⟨rfl, rfl⟩

/-- Claim C7: every operation returns the transport's error unmodified with
a nil resource when the transport fails, and the decoded envelope with no
error when it succeeds; no retry, classification, or partial recovery. -/
theorem transport_error_propagation :
    ∀ {α ε : Type} (s : CompanyServiceOp) (e : ε) (companyID : String)
      (company : α) (opt : RequestQueryOption) (sopt : RequestSearchOption)
      (rs : ResponseResource α) (rm : ResponseResourceMulti α),
      (s.Get (fun _ _ _ => Except.error e) companyID company (some opt) =
          Outcome.fail e ∧
        s.Get (fun _ _ _ => (Except.ok rs : Except ε _)) companyID company (some opt) =
          Outcome.ok rs) ∧
      (s.GetAll (fun _ _ _ => Except.error e) company (some opt) =
          Outcome.fail e ∧
        s.GetAll (fun _ _ _ => (Except.ok rm : Except ε _)) company (some opt) =
          Outcome.ok rm) ∧
      (s.Search (fun _ _ _ => Except.error e) company sopt = Outcome.fail e ∧
        s.Search (fun _ _ _ => (Except.ok rm : Except ε _)) company sopt = Outcome.ok rm) ∧
      (s.Create (fun _ _ _ => Except.error e) company = Outcome.fail e ∧
        s.Create (fun _ _ _ => (Except.ok rs : Except ε _)) company = Outcome.ok rs) ∧
      (s.Update (fun _ _ _ => Except.error e) companyID company =
          Outcome.fail e ∧
        s.Update (fun _ _ _ => (Except.ok rs : Except ε _)) companyID company =
          Outcome.ok rs) ∧
      (s.Delete (fun _ => Except.error e) companyID = Outcome.fail e ∧
        s.Delete (fun _ => (Except.ok () : Except ε Unit)) companyID =
          Outcome.ok ()) := by
  intros
  exact ⟨⟨rfl, rfl⟩, ⟨rfl, rfl⟩, ⟨rfl, rfl⟩, ⟨rfl, rfl⟩, ⟨rfl, rfl⟩, ⟨rfl, rfl⟩⟩

/-- Claim C9: Get and GetAll dereference the query-option pointer before
any guard, so a nil option panics in both; with a non-nil option neither
operation can panic. -/
theorem nil_option_dereference :
    ∀ {α ε : Type} (s : CompanyServiceOp)
      (g : String → ResponseResource α → RequestQueryOption →
        Except ε (ResponseResource α))
      (gm : String → ResponseResourceMulti α → RequestQueryOption →
        Except ε (ResponseResourceMulti α))
      (companyID : String) (company : α),
      s.Get g companyID company none = Outcome.panic GoPanic.nilDeref ∧
      s.GetAll gm company none = Outcome.panic GoPanic.nilDeref ∧
      ∀ opt : RequestQueryOption,
        (s.Get g companyID company (some opt)).isPanic = false ∧
        (s.GetAll gm company (some opt)).isPanic = false := by
  intro α ε s g gm companyID company
  refine ⟨rfl, rfl, fun opt => ⟨?_, ?_⟩⟩
  · simp [CompanyServiceOp.Get, Outcome.isPanic_ofExcept]
  · simp [CompanyServiceOp.GetAll, Outcome.isPanic_ofExcept]

/-- Claim C10: GetAll never reads its company target argument, so for the
same option and transport any two target values give equal results. -/
theorem getAll_independent_of_target :
    ∀ {α ε : Type} (s : CompanyServiceOp)
      (gm : String → ResponseResourceMulti α → RequestQueryOption →
        Except ε (ResponseResourceMulti α))
      (t1 t2 : α) (option : Option RequestQueryOption),
      s.GetAll gm t1 option = s.GetAll gm t2 option := by
  intros
  rfl

end Hubspot
